import Mathlib

/-!
Verification of the PNG chunk codec from `src/chunk_type.rs` and `src/chunk.rs`.

Bytes (`u8`) are modelled as `Nat` (masked with `% 256` where the source's
`u8` type forces wrap-around), `u32` values as `Nat` with explicit `% 2 ^ 32`
where overflow matters, `Vec<u8>` / `&[u8]` as `List Nat`, and fallible Rust
functions as `Except`.  A Rust panic (an `unwrap` on `Err`, or an
out-of-bounds `split_at`) is a distinct decode outcome, `DecodeResult.panicked`,
since it aborts the process instead of returning an error value.
-/

set_option maxRecDepth 1000000

namespace Pngme

/-- Equality of `Except` results is decidable when both component types
have decidable equality (used to evaluate decode outcomes on concrete
inputs). -/
instance {ε α : Type} [DecidableEq ε] [DecidableEq α] : DecidableEq (Except ε α) := fun a b =>
  match a, b with
  | .ok x, .ok y => if h : x = y then isTrue (by rw [h]) else isFalse (by simp [h])
  | .error x, .error y => if h : x = y then isTrue (by rw [h]) else isFalse (by simp [h])
  | .ok _, .error _ => isFalse (by simp)
  | .error _, .ok _ => isFalse (by simp)

/-- `u8::is_ascii_uppercase`: the byte is in `A ..= Z`. -/
def isAsciiUppercase (b : Nat) : Bool := 65 ≤ b && b ≤ 90

/-- `u8::is_ascii_lowercase`: the byte is in `a ..= z`. -/
def isAsciiLowercase (b : Nat) : Bool := 97 ≤ b && b ≤ 122

/-- The `[u8; 4]` array backing a `ChunkType`. -/
structure Bytes4 where
  b0 : Nat
  b1 : Nat
  b2 : Nat
  b3 : Nat
deriving DecidableEq, Repr

/-- The four array entries in order, as a byte list. -/
def Bytes4.toList (b : Bytes4) : List Nat := [b.b0, b.b1, b.b2, b.b3]

/-- `struct ChunkType { chunk: [u8; 4] }` from `chunk_type.rs`. -/
structure ChunkType where
  chunk : Bytes4
deriving DecidableEq, Repr

/-- `ChunkType::bytes`: returns the stored array unmodified. -/
def ChunkType.bytes (t : ChunkType) : Bytes4 := t.chunk

/-- `ChunkType::is_critical`: byte 0 is ASCII uppercase. -/
def ChunkType.is_critical (t : ChunkType) : Bool := isAsciiUppercase t.chunk.b0

/-- `ChunkType::is_public`: byte 1 is ASCII uppercase. -/
def ChunkType.is_public (t : ChunkType) : Bool := isAsciiUppercase t.chunk.b1

/-- `ChunkType::is_reserved_bit_valid`: byte 2 is ASCII uppercase. -/
def ChunkType.is_reserved_bit_valid (t : ChunkType) : Bool := isAsciiUppercase t.chunk.b2

/-- `ChunkType::is_safe_to_copy`: byte 3 is ASCII lowercase. -/
def ChunkType.is_safe_to_copy (t : ChunkType) : Bool := isAsciiLowercase t.chunk.b3

/-- `ChunkType::is_valid`: returns `true` exactly when the reserved bit is
valid, mirroring the early-return structure of the source. -/
def ChunkType.is_valid (t : ChunkType) : Bool :=
  if t.is_reserved_bit_valid then true else false

/-- `enum ChunkTypeError` from `chunk_type.rs`. -/
inductive ChunkTypeError where
  | InvalidString
  | InvalidChunkTypeBytes
deriving DecidableEq, Repr

/-- The byte loop of `ChunkType::try_from`: returns `false` (the source
returns `Err`) at the first byte that is neither lowercase nor uppercase. -/
def validTagBytes : List Nat → Bool
  | [] => true
  | b :: rest =>
    if !isAsciiLowercase b && !isAsciiUppercase b then false else validTagBytes rest

/-- `impl TryFrom<[u8; 4]> for ChunkType`: each byte must be an ASCII letter,
otherwise `ChunkTypeError::InvalidChunkTypeBytes`; on success the bytes are
stored verbatim. -/
def ChunkType.try_from (bytes : Bytes4) : Except ChunkTypeError ChunkType :=
  if validTagBytes bytes.toList then .ok { chunk := bytes }
  else .error .InvalidChunkTypeBytes

/-- `ChunkType::from_str`: requires exactly 4 bytes, then delegates to
`ChunkType::try_from`.  The string argument is modelled by its byte list. -/
def ChunkType.from_str (s : List Nat) : Except ChunkTypeError ChunkType :=
  match s with
  | [a, b, c, d] => ChunkType.try_from ⟨a, b, c, d⟩
  | _ => .error .InvalidString

/-- The CRC-32 (IEEE) reflected polynomial `0xEDB88320`. -/
def crc32_poly : Nat := 0xEDB88320

/-- One bit step of the reflected CRC-32: shift right, conditionally xoring
in the polynomial when the low bit is set. -/
def crc32_step (c : Nat) : Nat :=
  if c % 2 = 1 then Nat.xor (c / 2) crc32_poly else c / 2

/-- `n` iterations of `crc32_step`. -/
def crc32_steps : Nat → Nat → Nat
  | 0, c => c
  | n + 1, c => crc32_steps n (crc32_step c)

/-- The byte loop of `crc::crc32::checksum_ieee`: absorb each byte into the
running CRC with eight bit steps.  The `% 256` records that the source's
bytes have type `u8`. -/
def checksum_ieee_go : Nat → List Nat → Nat
  | c, [] => c
  | c, b :: bs => checksum_ieee_go (crc32_steps 8 (Nat.xor c (b % 256))) bs

/-- `crc::crc32::checksum_ieee`: standard CRC-32 (IEEE), initial value
`0xFFFFFFFF`, final xor `0xFFFFFFFF`. -/
def checksum_ieee (bytes : List Nat) : Nat :=
  Nat.xor (checksum_ieee_go 0xFFFFFFFF bytes) 0xFFFFFFFF

/-- `enum ChunkError` from `chunk.rs`. -/
inductive ChunkError where
  | InvalidCRC
  | UTF8UncompatibleChunk
deriving DecidableEq, Repr

/-- `struct Chunk` from `chunk.rs`. -/
structure Chunk where
  data_length : Nat
  chunk_type : ChunkType
  chunk_data : List Nat
  crc : Nat
deriving DecidableEq, Repr

/-- `Chunk::new`: `data_length` is `chunk_data.len() as u32` (hence the
`% 2 ^ 32` wrap), and `crc` is the IEEE checksum of the tag bytes followed
by the payload. -/
def Chunk.new (chunk_type : ChunkType) (chunk_data : List Nat) : Chunk :=
  let data_length := chunk_data.length % 2 ^ 32
  let c := chunk_type.bytes.toList ++ chunk_data
  let crc := checksum_ieee c
  { data_length, chunk_type, chunk_data, crc }

/-- `Chunk::length`: the stored `data_length` field. -/
def Chunk.length (c : Chunk) : Nat := c.data_length

/-- `Chunk::data`: the payload bytes. -/
def Chunk.data (c : Chunk) : List Nat := c.chunk_data

/-- `Chunk::crc(&self)`: recomputes the checksum over tag bytes plus payload
on every call.  Named `crcMethod` here because the structure field is
already named `crc`. -/
def Chunk.crcMethod (c : Chunk) : Nat :=
  checksum_ieee (c.chunk_type.bytes.toList ++ c.data)

/-- A UTF-8 continuation byte, `0x80 ..= 0xBF`. -/
def utf8_cont (b : Nat) : Bool := 0x80 ≤ b && b ≤ 0xBF

/-- The UTF-8 validity check performed by `String::from_utf8` (well-formed
sequences only: no overlongs, no surrogates, max `U+10FFFF`). -/
def validUtf8 : List Nat → Bool
  | [] => true
  | b :: rest =>
    if b ≤ 0x7F then validUtf8 rest
    else if 0xC2 ≤ b && b ≤ 0xDF then
      match rest with
      | c1 :: r => utf8_cont c1 && validUtf8 r
      | [] => false
    else if b = 0xE0 then
      match rest with
      | c1 :: c2 :: r => (0xA0 ≤ c1 && c1 ≤ 0xBF) && utf8_cont c2 && validUtf8 r
      | _ => false
    else if 0xE1 ≤ b && b ≤ 0xEC then
      match rest with
      | c1 :: c2 :: r => utf8_cont c1 && utf8_cont c2 && validUtf8 r
      | _ => false
    else if b = 0xED then
      match rest with
      | c1 :: c2 :: r => (0x80 ≤ c1 && c1 ≤ 0x9F) && utf8_cont c2 && validUtf8 r
      | _ => false
    else if 0xEE ≤ b && b ≤ 0xEF then
      match rest with
      | c1 :: c2 :: r => utf8_cont c1 && utf8_cont c2 && validUtf8 r
      | _ => false
    else if b = 0xF0 then
      match rest with
      | c1 :: c2 :: c3 :: r =>
        (0x90 ≤ c1 && c1 ≤ 0xBF) && utf8_cont c2 && utf8_cont c3 && validUtf8 r
      | _ => false
    else if 0xF1 ≤ b && b ≤ 0xF3 then
      match rest with
      | c1 :: c2 :: c3 :: r => utf8_cont c1 && utf8_cont c2 && utf8_cont c3 && validUtf8 r
      | _ => false
    else if b = 0xF4 then
      match rest with
      | c1 :: c2 :: c3 :: r =>
        (0x80 ≤ c1 && c1 ≤ 0x8F) && utf8_cont c2 && utf8_cont c3 && validUtf8 r
      | _ => false
    else false

/-- `Chunk::data_as_string`: `String::from_utf8` on a clone of the payload;
a Rust `String` is represented by its UTF-8 byte list, so success returns
the payload bytes themselves. -/
def Chunk.data_as_string (c : Chunk) : Except ChunkError (List Nat) :=
  if validUtf8 c.chunk_data then .ok c.chunk_data else .error .UTF8UncompatibleChunk

/-- `u32::to_be_bytes`: big-endian bytes of a 32-bit value. -/
def u32_to_be_bytes (n : Nat) : List Nat :=
  [n / 2 ^ 24 % 256, n / 2 ^ 16 % 256, n / 2 ^ 8 % 256, n % 256]

/-- `u32::from_be_bytes` on four bytes. -/
def u32_from_be_bytes (a b c d : Nat) : Nat :=
  a * 2 ^ 24 + b * 2 ^ 16 + c * 2 ^ 8 + d

/-- `Chunk::as_bytes`: length (big-endian), tag bytes, payload, checksum
(big-endian), concatenated in that order. -/
def Chunk.as_bytes (c : Chunk) : List Nat :=
  u32_to_be_bytes c.data_length ++ c.chunk_type.bytes.toList ++ c.chunk_data
    ++ u32_to_be_bytes c.crc

/-- Outcome of `Chunk::try_from`: an `Ok` chunk, a returned `Err`, or a
process abort (`unwrap` on `Err`, or `split_at` past the end of the slice). -/
inductive DecodeResult where
  | ok (c : Chunk)
  | err (e : ChunkError)
  | panicked
deriving DecidableEq, Repr

/-- `impl TryFrom<&[u8]> for Chunk`, step by step: split off 4 length bytes,
4 tag bytes (`ChunkType::try_from(..).unwrap()` aborts on a bad tag), then
`data_length` payload bytes, then 4 checksum bytes; each `split_at` aborts
when fewer bytes remain than requested.  The CRC is recomputed over tag
bytes plus payload and compared against the stored big-endian value. -/
def Chunk.try_from (bytes : List Nat) : DecodeResult :=
  match bytes with
  | l0 :: l1 :: l2 :: l3 :: rest1 =>
    let data_length := u32_from_be_bytes l0 l1 l2 l3
    match rest1 with
    | t0 :: t1 :: t2 :: t3 :: rest2 =>
      match ChunkType.try_from ⟨t0, t1, t2, t3⟩ with
      | .error _ => .panicked
      | .ok chunk_type =>
        if data_length ≤ rest2.length then
          let chunk_data := rest2.take data_length
          let rest3 := rest2.drop data_length
          match rest3 with
          | c0 :: c1 :: c2 :: c3 :: _ =>
            let crc := u32_from_be_bytes c0 c1 c2 c3
            let calculated_crc := checksum_ieee ([t0, t1, t2, t3] ++ chunk_data)
            if crc = calculated_crc then
              .ok { data_length, chunk_type, chunk_data, crc }
            else
              .err .InvalidCRC
          | _ => .panicked
        else .panicked
    | _ => .panicked
  | _ => .panicked

/-- The `"RuSt"` tag used throughout the source's tests. -/
def rustTag : ChunkType := ⟨⟨82, 117, 83, 116⟩⟩

/-- UTF-8 bytes of `"This is where your secret message will be!"`. -/
def secretMessage : List Nat :=
  [84, 104, 105, 115, 32, 105, 115, 32, 119, 104, 101, 114, 101, 32,
   121, 111, 117, 114, 32, 115, 101, 99, 114, 101, 116, 32, 109, 101,
   115, 115, 97, 103, 101, 32, 119, 105, 108, 108, 32, 98, 101, 33]

theorem crc32_step_lt {c : Nat} (h : c < 2 ^ 32) : crc32_step c < 2 ^ 32 := by
  unfold crc32_step
  split
  · exact Nat.xor_lt_two_pow (by omega) (by norm_num [crc32_poly])
  · omega

theorem crc32_steps_lt (n : Nat) {c : Nat} (h : c < 2 ^ 32) : crc32_steps n c < 2 ^ 32 := by
  induction n generalizing c with
  | zero => exact h
  | succ n ih => exact ih (crc32_step_lt h)

theorem checksum_ieee_go_lt (bs : List Nat) {c : Nat} (h : c < 2 ^ 32) :
    checksum_ieee_go c bs < 2 ^ 32 := by
  induction bs generalizing c with
  | nil => exact h
  | cons b bs ih => exact ih (crc32_steps_lt 8 (Nat.xor_lt_two_pow h (by omega)))

theorem checksum_ieee_lt (bs : List Nat) : checksum_ieee bs < 2 ^ 32 :=
  Nat.xor_lt_two_pow (checksum_ieee_go_lt bs (by norm_num)) (by norm_num)

theorem u32_roundtrip {n : Nat} (h : n < 2 ^ 32) :
    u32_from_be_bytes (n / 2 ^ 24 % 256) (n / 2 ^ 16 % 256) (n / 2 ^ 8 % 256) (n % 256) = n := by
  unfold u32_from_be_bytes
  omega

theorem validTagBytes_eq_all (l : List Nat) :
    validTagBytes l = l.all fun b => isAsciiLowercase b || isAsciiUppercase b := by
  induction l with
  | nil => rfl
  | cons b rest ih =>
      cases hl : isAsciiLowercase b <;> cases hu : isAsciiUppercase b <;>
        simp [validTagBytes, hl, hu, ih]

theorem chunkType_try_from_ok {t0 t1 t2 t3 : Nat}
    (htag : validTagBytes [t0, t1, t2, t3] = true) :
    ChunkType.try_from ⟨t0, t1, t2, t3⟩ = Except.ok ⟨⟨t0, t1, t2, t3⟩⟩ := by
  unfold ChunkType.try_from
  simp [Bytes4.toList, htag]

/-- Reduction of `Chunk::try_from` on any buffer that is long enough for its
declared chunk: with letter tag bytes, the result is decided by the checksum
comparison alone, and trailing bytes are ignored. -/
theorem try_from_wellformed (l0 l1 l2 l3 t0 t1 t2 t3 c0 c1 c2 c3 : Nat)
    (payload trailing : List Nat)
    (htag : validTagBytes [t0, t1, t2, t3] = true)
    (hdl : u32_from_be_bytes l0 l1 l2 l3 = payload.length) :
    Chunk.try_from ([l0, l1, l2, l3, t0, t1, t2, t3] ++ payload ++ [c0, c1, c2, c3] ++ trailing)
      = if u32_from_be_bytes c0 c1 c2 c3 = checksum_ieee ([t0, t1, t2, t3] ++ payload)
        then DecodeResult.ok
          ⟨payload.length, ⟨⟨t0, t1, t2, t3⟩⟩, payload, u32_from_be_bytes c0 c1 c2 c3⟩
        else DecodeResult.err ChunkError.InvalidCRC := by
  have hshape : [l0, l1, l2, l3, t0, t1, t2, t3] ++ payload ++ [c0, c1, c2, c3] ++ trailing
      = l0 :: l1 :: l2 :: l3 ::
          (t0 :: t1 :: t2 :: t3 :: (payload ++ (c0 :: c1 :: c2 :: c3 :: trailing))) := by
    simp
  rw [hshape]
  simp only [Chunk.try_from, chunkType_try_from_ok htag, hdl]
  rw [if_pos (by simp)]
  rw [List.take_left, List.drop_left]

theorem validTagBytes_iff (l : List Nat) :
    validTagBytes l = true ↔
      ∀ x ∈ l, isAsciiUppercase x = true ∨ isAsciiLowercase x = true := by
  rw [validTagBytes_eq_all]
  simp only [List.all_eq_true, Bool.or_eq_true]
  exact ⟨fun h x hx => (h x hx).symm, fun h x hx => (h x hx).symm⟩

theorem chunkType_ok_inv {b : Bytes4} {t : ChunkType}
    (h : ChunkType.try_from b = Except.ok t) : t = ⟨b⟩ := by
  unfold ChunkType.try_from at h
  split at h
  · exact (Except.ok.inj h).symm
  · exact absurd h (by simp)

theorem try_from_ok_inv {bytes : List Nat} {c : Chunk}
    (h : Chunk.try_from bytes = DecodeResult.ok c) :
    c.crc = checksum_ieee (c.chunk_type.chunk.toList ++ c.chunk_data) := by
  unfold Chunk.try_from at h
  split at h
  case h_2 => exact absurd h (by simp)
  case h_1 l0 l1 l2 l3 rest1 =>
    split at h
    case h_2 => exact absurd h (by simp)
    case h_1 t0 t1 t2 t3 rest2 =>
      split at h
      case h_1 => exact absurd h (by simp)
      case h_2 ct hct =>
        dsimp only [] at h
        split at h
        case isFalse => exact absurd h (by simp)
        case isTrue hle =>
          split at h
          case h_2 => exact absurd h (by simp)
          case h_1 c0 c1 c2 c3 rest4 hrest =>
            split at h
            case isFalse => exact absurd h (by simp)
            case isTrue hcrc =>
              cases h
              rw [chunkType_ok_inv hct]
              simpa [Bytes4.toList] using hcrc

/-- C1: for every `TypeTag` whose 4 bytes are ASCII letters and every payload
whose length is representable in 32 bits, `Chunk::try_from` on the bytes of
`Chunk::new(t, p)` succeeds and returns a chunk equal to `Chunk::new(t, p)`
(hence with the same length, tag bytes, payload, and checksum). -/
theorem roundtrip_decode_encode (t : ChunkType) (p : List Nat)
    (hp : p.length < 2 ^ 32)
    (ht : ∀ x ∈ t.chunk.toList, isAsciiUppercase x = true ∨ isAsciiLowercase x = true) :
    Chunk.try_from (Chunk.new t p).as_bytes = DecodeResult.ok (Chunk.new t p) := by
  obtain ⟨⟨b0, b1, b2, b3⟩⟩ := t
  have htag : validTagBytes [b0, b1, b2, b3] = true := (validTagBytes_iff _).mpr ht
  have hmod : p.length % 2 ^ 32 = p.length := Nat.mod_eq_of_lt hp
  have hcrc : checksum_ieee ([b0, b1, b2, b3] ++ p) < 2 ^ 32 := checksum_ieee_lt _
  have hbytes : (Chunk.new ⟨⟨b0, b1, b2, b3⟩⟩ p).as_bytes
      = [p.length / 2 ^ 24 % 256, p.length / 2 ^ 16 % 256, p.length / 2 ^ 8 % 256,
         p.length % 256, b0, b1, b2, b3] ++ p
        ++ [checksum_ieee ([b0, b1, b2, b3] ++ p) / 2 ^ 24 % 256,
            checksum_ieee ([b0, b1, b2, b3] ++ p) / 2 ^ 16 % 256,
            checksum_ieee ([b0, b1, b2, b3] ++ p) / 2 ^ 8 % 256,
            checksum_ieee ([b0, b1, b2, b3] ++ p) % 256] ++ [] := by
    simp [Chunk.new, Chunk.as_bytes, u32_to_be_bytes, ChunkType.bytes, Bytes4.toList]
    omega
  rw [hbytes,
    try_from_wellformed _ _ _ _ _ _ _ _ _ _ _ _ _ _ htag (u32_roundtrip hp),
    u32_roundtrip hcrc, if_pos rfl]
  simp [Chunk.new, ChunkType.bytes, Bytes4.toList]
  omega

/-- Witness for [roundtrip_decode_encode] at the `"RuSt"` tag and a 3-byte
payload. -/
theorem roundtrip_decode_encode_witness :
    Chunk.try_from (Chunk.new rustTag [1, 2, 3]).as_bytes
      = DecodeResult.ok (Chunk.new rustTag [1, 2, 3]) :=
  roundtrip_decode_encode rustTag [1, 2, 3] (by decide) (by decide)

/-- C2 (amended): on a buffer long enough for its declared chunk — written as
4 length bytes, 4 tag bytes that are ASCII letters, the declared number of
payload bytes, 4 stored-checksum bytes, and arbitrary trailing bytes —
`Chunk::try_from` recomputes the CRC over tag bytes plus payload; a mismatch
yields the `InvalidCRC` error (the spec's `ChecksumMismatch`) and no chunk,
and a match yields the chunk with the parsed length, tag, payload, and the
stored checksum. -/
theorem decode_checksum_gate (l0 l1 l2 l3 t0 t1 t2 t3 c0 c1 c2 c3 : Nat)
    (payload trailing : List Nat)
    (htag : ∀ x ∈ [t0, t1, t2, t3], isAsciiUppercase x = true ∨ isAsciiLowercase x = true)
    (hdl : u32_from_be_bytes l0 l1 l2 l3 = payload.length) :
    (u32_from_be_bytes c0 c1 c2 c3 ≠ checksum_ieee ([t0, t1, t2, t3] ++ payload) →
      Chunk.try_from ([l0, l1, l2, l3, t0, t1, t2, t3] ++ payload ++ [c0, c1, c2, c3] ++ trailing)
        = DecodeResult.err ChunkError.InvalidCRC)
    ∧ (u32_from_be_bytes c0 c1 c2 c3 = checksum_ieee ([t0, t1, t2, t3] ++ payload) →
      Chunk.try_from ([l0, l1, l2, l3, t0, t1, t2, t3] ++ payload ++ [c0, c1, c2, c3] ++ trailing)
        = DecodeResult.ok
            ⟨payload.length, ⟨⟨t0, t1, t2, t3⟩⟩, payload, u32_from_be_bytes c0 c1 c2 c3⟩) := by
  have hred := try_from_wellformed l0 l1 l2 l3 t0 t1 t2 t3 c0 c1 c2 c3 payload trailing
    ((validTagBytes_iff _).mpr htag) hdl
  constructor
  · intro hne
    rw [hred, if_neg hne]
  · intro heq
    rw [hred, if_pos heq]

/-- Witness for [decode_checksum_gate]: the source's own test buffer
(tag `"RuSt"`, the 42-byte secret message, stored checksum `2882656334`)
decodes to the expected chunk, and the same buffer with the corrupted
checksum `2882656333` fails with `InvalidCRC`. -/
theorem decode_checksum_gate_witness :
    Chunk.try_from ([0, 0, 0, 42, 82, 117, 83, 116] ++ secretMessage
        ++ [171, 209, 216, 78] ++ [])
      = DecodeResult.ok ⟨42, rustTag, secretMessage, 2882656334⟩
    ∧ Chunk.try_from ([0, 0, 0, 42, 82, 117, 83, 116] ++ secretMessage
        ++ [171, 209, 216, 77] ++ [])
      = DecodeResult.err ChunkError.InvalidCRC :=
  ⟨(decode_checksum_gate 0 0 0 42 82 117 83 116 171 209 216 78
      secretMessage [] (by decide) (by decide)).2 (by decide),
   (decode_checksum_gate 0 0 0 42 82 117 83 116 171 209 216 77
      secretMessage [] (by decide) (by decide)).1 (by decide)⟩

/-- C2 counterexample: the all-zero 12-byte buffer is long enough for its
declared chunk (declared length 0) and its recomputed checksum differs from
the stored zero checksum, yet `Chunk::try_from` panics on the non-letter tag
bytes instead of failing with the checksum-mismatch error. -/
theorem decode_checksum_gate_cex :
    u32_from_be_bytes 0 0 0 0 = ([] : List Nat).length
    ∧ checksum_ieee [0, 0, 0, 0] ≠ u32_from_be_bytes 0 0 0 0
    ∧ Chunk.try_from (List.replicate 12 0) = DecodeResult.panicked
    ∧ Chunk.try_from (List.replicate 12 0) ≠ DecodeResult.err ChunkError.InvalidCRC := by
  decide

/-- C3: serialization emits the 4 big-endian length bytes, the 4 raw tag
bytes, the payload verbatim, and the 4 big-endian checksum bytes, for a
total of `12 + length` bytes; with an empty payload the output is exactly
12 bytes and the checksum is the CRC of the tag bytes alone. -/
theorem serialization_layout (t : ChunkType) (p : List Nat) (hp : p.length < 2 ^ 32) :
    (Chunk.new t p).as_bytes
      = u32_to_be_bytes p.length ++ t.chunk.toList ++ p
          ++ u32_to_be_bytes (checksum_ieee (t.chunk.toList ++ p))
    ∧ (Chunk.new t p).as_bytes.length = 12 + (Chunk.new t p).length
    ∧ (Chunk.new t []).as_bytes.length = 12
    ∧ (Chunk.new t []).crc = checksum_ieee t.chunk.toList := by
  have hmod : p.length % 2 ^ 32 = p.length := Nat.mod_eq_of_lt hp
  refine ⟨?_, ?_, ?_, ?_⟩
  · simp [Chunk.new, Chunk.as_bytes, u32_to_be_bytes, ChunkType.bytes]
    omega
  · simp [Chunk.new, Chunk.as_bytes, Chunk.length, u32_to_be_bytes, Bytes4.toList]
    omega
  · simp [Chunk.new, Chunk.as_bytes, u32_to_be_bytes, Bytes4.toList]
  · simp [Chunk.new, ChunkType.bytes]

/-- Witness for [serialization_layout] at the `"RuSt"` tag and a
3-byte payload. -/
theorem serialization_layout_witness :
    (Chunk.new rustTag [1, 2, 3]).as_bytes
      = u32_to_be_bytes 3 ++ rustTag.chunk.toList ++ [1, 2, 3]
          ++ u32_to_be_bytes (checksum_ieee (rustTag.chunk.toList ++ [1, 2, 3]))
    ∧ (Chunk.new rustTag [1, 2, 3]).as_bytes.length = 12 + (Chunk.new rustTag [1, 2, 3]).length :=
  ⟨(serialization_layout rustTag [1, 2, 3] (by decide)).1,
   (serialization_layout rustTag [1, 2, 3] (by decide)).2.1⟩

/-- C4: through both construction paths the stored `crc` field is the IEEE
CRC-32 of the tag bytes followed by the payload, and the `crc()` accessor —
which recomputes that CRC on every call, hence is deterministic — agrees
with the stored field. -/
theorem checksum_invariant :
    (∀ (t : ChunkType) (p : List Nat),
      (Chunk.new t p).crc = checksum_ieee (t.chunk.toList ++ p)
        ∧ (Chunk.new t p).crcMethod = (Chunk.new t p).crc)
    ∧ (∀ (bytes : List Nat) (c : Chunk), Chunk.try_from bytes = DecodeResult.ok c →
        c.crc = checksum_ieee (c.chunk_type.chunk.toList ++ c.chunk_data)
          ∧ c.crcMethod = c.crc) := by
  constructor
  · exact fun t p => ⟨rfl, rfl⟩
  · intro bytes c h
    have hinv := try_from_ok_inv h
    exact ⟨hinv, hinv.symm⟩

/-- Witness for [checksum_invariant]: its decode half applied to the
source's test buffer and the chunk it decodes to. -/
theorem checksum_invariant_witness :
    (⟨42, rustTag, secretMessage, 2882656334⟩ : Chunk).crc
        = checksum_ieee (rustTag.chunk.toList ++ secretMessage)
    ∧ (⟨42, rustTag, secretMessage, 2882656334⟩ : Chunk).crcMethod
        = (⟨42, rustTag, secretMessage, 2882656334⟩ : Chunk).crc :=
  checksum_invariant.2 ([0, 0, 0, 42, 82, 117, 83, 116] ++ secretMessage ++ [171, 209, 216, 78])
    ⟨42, rustTag, secretMessage, 2882656334⟩ (by decide)

/-- C5: `ChunkType::try_from` on 4 raw bytes succeeds — storing the bytes
verbatim, case preserved — iff all four bytes are ASCII letters; if any
byte is not a letter it fails with `InvalidChunkTypeBytes` (the spec's
`InvalidTagBytes`) and no tag is produced. -/
theorem tag_validation_boundary (b : Bytes4) :
    (ChunkType.try_from b = Except.ok ⟨b⟩ ↔
      ∀ x ∈ b.toList, isAsciiUppercase x = true ∨ isAsciiLowercase x = true)
    ∧ ((∃ x ∈ b.toList, ¬(isAsciiUppercase x = true ∨ isAsciiLowercase x = true)) →
      ChunkType.try_from b = Except.error ChunkTypeError.InvalidChunkTypeBytes) := by
  constructor
  · constructor
    · intro hok
      cases hv : validTagBytes b.toList with
      | true => exact (validTagBytes_iff _).mp hv
      | false =>
          unfold ChunkType.try_from at hok
          rw [hv] at hok
          exact absurd hok (by simp)
    · intro hall
      unfold ChunkType.try_from
      rw [(validTagBytes_iff _).mpr hall]
      rfl
  · rintro ⟨x, hx, hbad⟩
    have hv : validTagBytes b.toList = false := by
      cases hv : validTagBytes b.toList with
      | false => rfl
      | true => exact absurd ((validTagBytes_iff _).mp hv x hx) hbad
    unfold ChunkType.try_from
    rw [hv]
    rfl

/-- Witness for [tag_validation_boundary]: `"Ru1t"` (contains a digit) is
rejected with the tag-bytes error, and `"RuSt"` is accepted verbatim. -/
theorem tag_validation_boundary_witness :
    ChunkType.try_from ⟨82, 117, 49, 116⟩
        = Except.error ChunkTypeError.InvalidChunkTypeBytes
    ∧ ChunkType.try_from ⟨82, 117, 83, 116⟩ = Except.ok ⟨⟨82, 117, 83, 116⟩⟩ :=
  ⟨(tag_validation_boundary ⟨82, 117, 49, 116⟩).2 ⟨49, by decide, by decide⟩,
   (tag_validation_boundary ⟨82, 117, 83, 116⟩).1.mpr (by decide)⟩

/-- C6: each flag accessor reads the case of its byte — byte 0 uppercase for
critical, byte 1 for public, byte 2 for the reserved bit, byte 3 lowercase
for safe-to-copy — and `is_valid` is exactly the reserved-bit check; the
reference vectors `"RuSt"` and `"Rust"` behave as the spec states. -/
theorem flag_semantics :
    (∀ t : ChunkType,
      t.is_critical = isAsciiUppercase t.chunk.b0
      ∧ t.is_public = isAsciiUppercase t.chunk.b1
      ∧ t.is_reserved_bit_valid = isAsciiUppercase t.chunk.b2
      ∧ t.is_safe_to_copy = isAsciiLowercase t.chunk.b3
      ∧ t.is_valid = isAsciiUppercase t.chunk.b2)
    ∧ (ChunkType.try_from ⟨82, 117, 83, 116⟩ = Except.ok rustTag
      ∧ rustTag.is_critical = true
      ∧ rustTag.is_public = false
      ∧ rustTag.is_reserved_bit_valid = true
      ∧ rustTag.is_safe_to_copy = true
      ∧ rustTag.is_valid = true)
    ∧ (ChunkType.try_from ⟨82, 117, 115, 116⟩ = Except.ok ⟨⟨82, 117, 115, 116⟩⟩
      ∧ (ChunkType.mk ⟨82, 117, 115, 116⟩).is_reserved_bit_valid = false
      ∧ (ChunkType.mk ⟨82, 117, 115, 116⟩).is_valid = false) := by
  refine ⟨fun t => ⟨rfl, rfl, rfl, rfl, ?_⟩, by decide, by decide⟩
  have hvalid : t.is_valid = t.is_reserved_bit_valid := by
    unfold ChunkType.is_valid
    cases t.is_reserved_bit_valid <;> rfl
  rw [hvalid]
  rfl

/-- C7: the claim is right and the code is wrong — on a buffer whose tag
bytes are not all ASCII letters (here `"Ru1t"`), `ChunkType::try_from`
produces the tag error, but `Chunk::try_from` calls `.unwrap()` on it and
panics instead of propagating a typed decode error. -/
theorem decode_invalid_tag_panics :
    ChunkType.try_from ⟨82, 117, 49, 116⟩
        = Except.error ChunkTypeError.InvalidChunkTypeBytes
    ∧ Chunk.try_from [0, 0, 0, 0, 82, 117, 49, 116, 0, 0, 0, 0] = DecodeResult.panicked
    ∧ Chunk.try_from [0, 0, 0, 0, 82, 117, 49, 116, 0, 0, 0, 0]
        ≠ DecodeResult.err ChunkError.InvalidCRC := by
  decide

/-- C8: the claim is right and the code is wrong — on buffers with fewer
than `8 + data_length + 4` bytes, `Chunk::try_from` panics in `split_at`
(there is no `TruncatedInput` error in the code at all) instead of
returning a decode error. -/
theorem decode_truncated_panics :
    Chunk.try_from [0, 0, 0] = DecodeResult.panicked
    ∧ Chunk.try_from [0, 0, 0, 0, 82, 117] = DecodeResult.panicked
    ∧ Chunk.try_from [0, 0, 0, 5, 82, 117, 83, 116, 1, 2] = DecodeResult.panicked
    ∧ Chunk.try_from [0, 0, 0, 1, 82, 117, 83, 116, 9] = DecodeResult.panicked := by
  decide

/-- C9 counterexample: the UTF-8 bytes of
`"This is where your secret message will be!"` number 42, not 44, so the
length field is 42 (not 44 = 0x2C) and the serialized buffer is 54 bytes,
not 56. -/
theorem end_to_end_example_cex :
    secretMessage.length = 42
    ∧ secretMessage.length ≠ 44
    ∧ (Chunk.new rustTag secretMessage).data_length ≠ 44
    ∧ (Chunk.new rustTag secretMessage).as_bytes.length = 54
    ∧ (Chunk.new rustTag secretMessage).as_bytes.length ≠ 56 := by
  decide

/-- C9 (amended): with tag `"RuSt"` and the 42-byte message payload, the
constructed chunk has length field 42 and checksum `2882656334`, serializes
to 54 bytes, decodes back to the identical chunk, and the text accessor on
the decoded chunk returns the identical message bytes. -/
theorem end_to_end_example :
    secretMessage.length = 42
    ∧ (Chunk.new rustTag secretMessage).data_length = 42
    ∧ (Chunk.new rustTag secretMessage).crc = 2882656334
    ∧ (Chunk.new rustTag secretMessage).as_bytes.length = 54
    ∧ Chunk.try_from (Chunk.new rustTag secretMessage).as_bytes
        = DecodeResult.ok (Chunk.new rustTag secretMessage)
    ∧ (Chunk.new rustTag secretMessage).data_as_string = Except.ok secretMessage := by
  decide

/-- C10: `Chunk::new` always succeeds, storing `payload.len() as u32`: the
length field is the payload length modulo `2 ^ 32`, exact for payloads
under `2 ^ 32` bytes, while for longer payloads it silently wraps and then
disagrees with the number of payload bytes actually emitted by
serialization (`12 + payload.length` bytes in total). -/
theorem new_never_fails_length_wraps (t : ChunkType) (p : List Nat) :
    (Chunk.new t p).data_length = p.length % 2 ^ 32
    ∧ (p.length < 2 ^ 32 → (Chunk.new t p).data_length = p.length)
    ∧ (2 ^ 32 ≤ p.length →
        (Chunk.new t p).data_length ≠ p.length
        ∧ (Chunk.new t p).as_bytes.length = 12 + p.length) := by
  refine ⟨rfl, fun h => Nat.mod_eq_of_lt h, fun h => ⟨?_, ?_⟩⟩
  · have hlt : p.length % 2 ^ 32 < 2 ^ 32 := Nat.mod_lt _ (by norm_num)
    show p.length % 2 ^ 32 ≠ p.length
    omega
  · simp [Chunk.new, Chunk.as_bytes, u32_to_be_bytes, Bytes4.toList]
    omega

/-- Witness for [new_never_fails_length_wraps]: exact length for a 3-byte
payload, and wrap-around disagreement for a payload of `2 ^ 32` zero
bytes. -/
theorem new_never_fails_length_wraps_witness :
    (Chunk.new rustTag [1, 2, 3]).data_length = 3
    ∧ (Chunk.new rustTag (List.replicate (2 ^ 32) 0)).data_length
        ≠ (List.replicate (2 ^ 32) 0).length := by
  constructor
  · simpa using (new_never_fails_length_wraps rustTag [1, 2, 3]).2.1 (by decide)
  · have h32 : 2 ^ 32 ≤ (List.replicate (2 ^ 32) 0).length :=
      Nat.le_of_eq (List.length_replicate (2 ^ 32) 0).symm
    exact ((new_never_fails_length_wraps rustTag (List.replicate (2 ^ 32) 0)).2.2 h32).1

end Pngme
